import Mathlib

/-!
Shallow embedding of `lob.py` from the `nseindia_lob` repository: a
limit-order-book matching engine (`class LimitOrderBook`).

Modelling conventions:
* Python float prices are modelled as exact rationals (`ℚ`); the engine only
  compares prices for equality and order, so this is faithful for the inputs
  the program is specified on (decimal multiples of the tick size).
* Order volumes are natural numbers (the input schema gives positive integer
  volumes; the code subtracts only when the minuend is strictly larger).
* A `dict` keyed by price is an association list `List (ℚ × Level)`; key order
  is irrelevant because the code only reads keys through `max`/`min`.
* An `odict` price-level queue is a `List Event` (head = oldest); insertion
  appends, `pop(key)` removes the entry with that key.
* A raised Python exception is an `ErrKind` value returned next to the state
  reached at the moment of the raise (Python mutates `self` in place, so
  mutations made before the raise survive it).
* The `while volume_original > 0` match loop is run on explicit fuel
  `orderCount opposite + 1`.  One full iteration that leaves the remaining
  volume positive consumes the whole best level (at least one order, since
  `best_*_price` raises `RuntimeError` on an empty best level before the loop
  body can run), so the opposite side's order count bounds the number of
  iterations and this fuel is never exhausted on states reachable in Python.
-/

namespace Lob

/-- Buy/sell indicator: `'B'` or `'S'` (`BID = BUY = 'B'`, `ASK = SELL = 'S'`). -/
inductive Side where
  | B : Side
  | S : Side
deriving DecidableEq, Repr

/-- `trans_date`, as parsed by `datetime.datetime.strptime(_, '%m/%d/%Y')`.
The engine reads only the `.day` field (day of month). -/
structure TransDate where
  month : Nat
  day : Nat
  year : Nat
deriving DecidableEq, Repr

/-- One input row (an order event), restricted to the fields `lob.py` reads.
`mkt_flag = true` models `mkt_flag == 'Y'`.  The same record also represents a
resting order in the book (the code stores the whole row dict and mutates its
`volume_original` in place). -/
structure Event where
  order_number : Nat
  trans_date : TransDate
  trans_time : Nat
  buy_sell_indicator : Side
  activity_type : Nat
  volume_disclosed : Nat
  volume_original : Nat
  limit_price : ℚ
  mkt_flag : Bool
deriving DecidableEq, Repr

/-- A price-level queue (`odict`): oldest order first. -/
abbrev Level := List Event

/-- One side of `_book_data`: a dict from price to level queue. -/
abbrev SideBook := List (ℚ × Level)

/-- A record stored in `self._trades` by `record_trade` (note: the
`trade_date` argument is *not* stored, exactly as in the source). -/
structure Trade where
  trade_time : Nat
  trade_price : ℚ
  trade_quantity : Nat
  buy_order_number : Nat
  sell_order_number : Nat
deriving DecidableEq, Repr

/-- Python exceptions the embedded code can raise. -/
inductive ErrKind where
  /-- `AttributeError`: calling `.keys()` on `None` (missing price level). -/
  | attributeError : ErrKind
  /-- `RuntimeError('empty price level detected')`. -/
  | runtimeError : ErrKind
  /-- `ValueError` (unknown activity type, cancel/modify of market order). -/
  | valueError : ErrKind
  /-- `KeyError` from an unguarded dict lookup/pop. -/
  | keyError : ErrKind
  /-- Fuel exhaustion of the modelled `while` loop (unreachable on states
  with no empty levels; stands for non-termination). -/
  | outOfFuel : ErrKind
deriving DecidableEq, Repr

/-- The mutable fields of a `LimitOrderBook` object: `_book_data[BID]`,
`_book_data[ASK]`, `_trade_counter`, `_trades`. -/
structure EngineState where
  bid : SideBook
  ask : SideBook
  tradeCounter : Nat
  trades : List (String × Trade)
deriving DecidableEq, Repr

/-- Freshly constructed `LimitOrderBook()`. -/
def initState : EngineState :=
  { bid := [], ask := [], tradeCounter := 1, trades := [] }

/-- Read one side's book. -/
def getBook (st : EngineState) (s : Side) : SideBook :=
  match s with
  | Side.B => st.bid
  | Side.S => st.ask

/-- Write one side's book. -/
def setBook (st : EngineState) (s : Side) (b : SideBook) : EngineState :=
  match s with
  | Side.B => { st with bid := b }
  | Side.S => { st with ask := b }

/-- `book[price]` with the `KeyError` caught (`price_level`): the queue at
that price, if the level exists. -/
def lookupLevel (b : SideBook) (p : ℚ) : Option Level :=
  (b.find? (fun kv => kv.1 == p)).map (·.2)

/-- Replace the queue stored at an existing price key. -/
def setLevel (b : SideBook) (p : ℚ) (l : Level) : SideBook :=
  b.map (fun kv => if kv.1 == p then (kv.1, l) else kv)

/-- `self._book_data[indicator].pop(price)` (`delete_level`). -/
def eraseLevel (b : SideBook) (p : ℚ) : SideBook :=
  b.eraseP (fun kv => kv.1 == p)

/-- `od[new_order['order_number']] = new_order` on the level at `p`, creating
the level first when absent (`create_level` + dict insertion). -/
def addToLevel (b : SideBook) (p : ℚ) (o : Event) : SideBook :=
  match lookupLevel b p with
  | some l => setLevel b p (l ++ [o])
  | none => b ++ [(p, [o])]

/-- Total volume-weighted size of a side book: number of resting orders. -/
def orderCount (b : SideBook) : Nat :=
  (b.map (fun kv => kv.2.length)).sum

/-- `max(prices)` / `min(prices)` over the side's keys, `None` when empty. -/
def extremeKey (isBid : Bool) (b : SideBook) : Option ℚ :=
  b.foldl
    (fun acc kv =>
      match acc with
      | none => some kv.1
      | some m => some (if isBid then max m kv.1 else min m kv.1))
    none

/-- `best_bid_price` / `best_ask_price` together with the `price_level`
lookup the match loop performs next: returns the best price and its queue,
`none` when the side is empty, and `RuntimeError` when the queue at the best
price is empty (the source's `'empty price level detected'` check). -/
def bestLevel (isBid : Bool) (b : SideBook) : Except ErrKind (Option (ℚ × Level)) :=
  match extremeKey isBid b with
  | none => Except.ok none
  | some p =>
    match lookupLevel b p with
    | some [] => Except.error ErrKind.runtimeError
    | some l => Except.ok (some (p, l))
    | none => Except.error ErrKind.runtimeError

/-- `best_bid_price` / `best_ask_price` alone (used by the marketability
test of `add`): the price, or `None`, or `RuntimeError`. -/
def bestPrice (isBid : Bool) (b : SideBook) : Except ErrKind (Option ℚ) :=
  match bestLevel isBid b with
  | Except.ok none => Except.ok none
  | Except.ok (some (p, _)) => Except.ok (some p)
  | Except.error e => Except.error e

/-- `'%08i' % n`: decimal digits of `n`, zero-padded on the left to width 8. -/
def formatTradeNumber (n : Nat) : String :=
  let s := toString n
  if s.length < 8 then String.mk (List.replicate (8 - s.length) '0') ++ s else s

/-- Python dict assignment `m[k] = v`: overwrite the value when the key is
present (keeping its position), append otherwise. -/
def dictInsert (m : List (String × Trade)) (k : String) (v : Trade) :
    List (String × Trade) :=
  if m.any (fun kv => kv.1 == k) then
    m.map (fun kv => if kv.1 == k then (kv.1, v) else kv)
  else
    m ++ [(k, v)]

/-- `record_trade`: store the trade under `'%08i' % self._trade_counter` and
increment the counter (the `trade_date` argument is dropped, as in source). -/
def recordTrade (tm : Nat) (p : ℚ) (q : Nat) (bn sn : Nat)
    (st : EngineState) : EngineState :=
  { st with
    trades := dictInsert st.trades (formatTradeNumber st.tradeCounter)
      { trade_time := tm, trade_price := p, trade_quantity := q,
        buy_order_number := bn, sell_order_number := sn }
    tradeCounter := st.tradeCounter + 1 }

/-- `clear_book`: empty both side books and reset the trade counter to 1;
`_trades` is left untouched. -/
def clearBook (st : EngineState) : EngineState :=
  { st with bid := [], ask := [], tradeCounter := 1 }

/-- The inner `for order_number in od.keys()` loop of the match code, walking
the level queue at `best_price = p` from oldest to newest with remaining
incoming volume `R`.  Returns the remaining volume, the remaining queue, and
the state with the emitted trades recorded.  The three arms mirror the
source's `==` / `>` / `<` comparisons against `volume_original`; in the `>`
arm the recorded quantity is `curr_order['volume_original'] - volume_original`
exactly as written in the source. -/
def consumeLevel (inc : Event) (p : ℚ) :
    Nat → Level → EngineState → Nat × Level × EngineState
  | R, [], st => (R, [], st)
  | R, o :: os, st =>
    let nums : Nat × Nat :=
      if inc.buy_sell_indicator = Side.B then (inc.order_number, o.order_number)
      else (o.order_number, inc.order_number)
    if o.volume_original = R then
      (0, os, recordTrade inc.trans_time p R nums.1 nums.2 st)
    else if R < o.volume_original then
      (0, { o with volume_original := o.volume_original - R } :: os,
        recordTrade inc.trans_time p (o.volume_original - R) nums.1 nums.2 st)
    else
      let st' := recordTrade inc.trans_time p o.volume_original nums.1 nums.2 st
      consumeLevel inc p (R - o.volume_original) os st'

/-- The `while volume_original > 0` match loop, with `oppIsBid` selecting the
opposite side book (BID when the incoming order sells).  Each iteration
fetches the best opposite price; `None` leads to
`od = self.price_level(side, None)` returning `None` and then
`od.keys()` raising `AttributeError`.  After the queue walk, the level is
updated in place or deleted when emptied (the net effect of the source's
`delete_order` calls). -/
def matchLoop (oppIsBid : Bool) (inc : Event) :
    Nat → Nat → EngineState → EngineState × Option ErrKind
  | 0, _, st => (st, some ErrKind.outOfFuel)
  | fuel + 1, R, st =>
    if R = 0 then (st, none)
    else
      let opp := getBook st (if oppIsBid then Side.B else Side.S)
      match bestLevel oppIsBid opp with
      | Except.error e => (st, some e)
      | Except.ok none => (st, some ErrKind.attributeError)
      | Except.ok (some (p, l)) =>
        let r := consumeLevel inc p R l st
        let opp' := if r.2.1.isEmpty then eraseLevel opp p else setLevel opp p r.2.1
        let st' := setBook r.2.2 (if oppIsBid then Side.B else Side.S) opp'
        matchLoop oppIsBid inc fuel r.1 st'

/-- `add`: market orders and marketable limit orders run the match loop on
the opposite side; non-marketable limit orders are appended to their own
price level (created on demand).  The two symmetric side branches mirror the
source's `if indicator == BUY ... elif indicator == SELL` structure; the
marketability test is the source's `price >= best_ask` / `price <= best_bid`
comparison, and a `RuntimeError` from the best-price read propagates. -/
def addOrder (o : Event) (st : EngineState) : EngineState × Option ErrKind :=
  match o.buy_sell_indicator with
  | Side.B =>
    if o.mkt_flag then
      matchLoop false o (orderCount st.ask + 1) o.volume_original st
    else
      match bestPrice false st.ask with
      | Except.error e => (st, some e)
      | Except.ok none =>
        (setBook st Side.B (addToLevel st.bid o.limit_price o), none)
      | Except.ok (some bp) =>
        if bp ≤ o.limit_price then
          matchLoop false o (orderCount st.ask + 1) o.volume_original st
        else
          (setBook st Side.B (addToLevel st.bid o.limit_price o), none)
  | Side.S =>
    if o.mkt_flag then
      matchLoop true o (orderCount st.bid + 1) o.volume_original st
    else
      match bestPrice true st.bid with
      | Except.error e => (st, some e)
      | Except.ok none =>
        (setBook st Side.S (addToLevel st.ask o.limit_price o), none)
      | Except.ok (some bp) =>
        if o.limit_price ≤ bp then
          matchLoop true o (orderCount st.bid + 1) o.volume_original st
        else
          (setBook st Side.S (addToLevel st.ask o.limit_price o), none)

/-- `delete_order(indicator, price, order_number)`: pop the order from the
level's queue, deleting the level when the queue empties; a missing level or
missing order raises `KeyError` (leaving the state unmutated, as the raise
happens at the lookup). -/
def deleteOrder (st : EngineState) (s : Side) (p : ℚ) (n : Nat) :
    EngineState × Option ErrKind :=
  match lookupLevel (getBook st s) p with
  | none => (st, some ErrKind.keyError)
  | some l =>
    if l.any (fun x => x.order_number == n) then
      let l' := l.eraseP (fun x => x.order_number == n)
      let b' := if l'.isEmpty then eraseLevel (getBook st s) p
                else setLevel (getBook st s) p l'
      (setBook st s b', none)
    else (st, some ErrKind.keyError)

/-- `cancel`: reject market orders with `ValueError`; otherwise look up the
level at the event's *reported* side and limit price, then the order number
inside it; either lookup failing is a logged no-op. -/
def cancelOrder (o : Event) (st : EngineState) : EngineState × Option ErrKind :=
  if o.mkt_flag then (st, some ErrKind.valueError)
  else
    match lookupLevel (getBook st o.buy_sell_indicator) o.limit_price with
    | none => (st, none)
    | some l =>
      if l.any (fun x => x.order_number == o.order_number) then
        deleteOrder st o.buy_sell_indicator o.limit_price o.order_number
      else (st, none)

/-- Sequencing used by `modify`: run `self.add(new_order)` after a
`delete_order` call unless the latter raised (in which case the exception
propagates with the state reached so far). -/
def thenAdd (o : Event) (r : EngineState × Option ErrKind) :
    EngineState × Option ErrKind :=
  match r with
  | (st', none) => addOrder o st'
  | (st', some e) => (st', some e)

/-- `modify`: reject market orders with `ValueError`; look up the level at
the *new* order's side and limit price and the old order inside it (either
failing is a no-op); then apply the source's cascade of comparisons between
the new and old order. -/
def modifyOrder (o : Event) (st : EngineState) : EngineState × Option ErrKind :=
  if o.mkt_flag then (st, some ErrKind.valueError)
  else
    match lookupLevel (getBook st o.buy_sell_indicator) o.limit_price with
    | none => (st, none)
    | some l =>
      match l.find? (fun x => x.order_number == o.order_number) with
      | none => (st, none)
      | some old =>
        if o.limit_price ≠ old.limit_price then
          thenAdd o
            (deleteOrder st old.buy_sell_indicator old.limit_price o.order_number)
        else if o.volume_original < old.volume_original then
          (setBook st o.buy_sell_indicator
            (setLevel (getBook st o.buy_sell_indicator) o.limit_price
              (l.map (fun x => if x.order_number == o.order_number then o else x))), none)
        else if o.volume_disclosed < old.volume_disclosed then
          (setBook st o.buy_sell_indicator
            (setLevel (getBook st o.buy_sell_indicator) o.limit_price
              (l.map (fun x => if x.order_number == o.order_number then o else x))), none)
        else if old.volume_original < o.volume_original then
          thenAdd o
            (deleteOrder st old.buy_sell_indicator old.limit_price o.order_number)
        else if old.volume_disclosed < o.volume_disclosed then
          thenAdd o
            (deleteOrder st old.buy_sell_indicator old.limit_price o.order_number)
        else (st, none)

/-- One iteration of the `process` loop for a single event: the day check
(`day` is the loop-local variable; note the source never updates it after the
first event, and compares only `trans_date.day`, the day of month), then
dispatch on `activity_type` (`1` add, `3` cancel, `4` modify — but add when
`mkt_flag == 'Y'` — anything else `ValueError`). -/
def stepEvent (day : Option Nat) (e : Event) (st : EngineState) :
    Option Nat × EngineState × Option ErrKind :=
  let d := e.trans_date.day
  let day' : Option Nat :=
    match day with
    | none => some d
    | some cd => some cd
  let st0 : EngineState :=
    match day with
    | none => st
    | some cd => if cd ≠ d then clearBook st else st
  let r : EngineState × Option ErrKind :=
    if e.activity_type = 1 then addOrder e st0
    else if e.activity_type = 3 then cancelOrder e st0
    else if e.activity_type = 4 then
      if e.mkt_flag then addOrder e st0 else modifyOrder e st0
    else (st0, some ErrKind.valueError)
  (day', r.1, r.2)

/-- The `for row in df.iterrows()` loop of `process`, with the loop-local
`day` threaded through; an uncaught exception aborts the loop, leaving the
mutations made so far in place. -/
def processFrom (day : Option Nat) :
    List Event → EngineState → EngineState × Option ErrKind
  | [], st => (st, none)
  | e :: es, st =>
    let r := stepEvent day e st
    match r.2.2 with
    | some err => (r.2.1, some err)
    | none => processFrom r.1 es r.2.1

/-- `process(df)`: the local variable `day` starts as `None` on every call. -/
def processEvents (es : List Event) (st : EngineState) :
    EngineState × Option ErrKind :=
  processFrom none es st

/-! Derived predicates used by the stated properties. -/

/-- Does an order with number `n` rest in the queue at `(s, p)`? -/
def restingAt (st : EngineState) (s : Side) (p : ℚ) (n : Nat) : Bool :=
  match lookupLevel (getBook st s) p with
  | some l => l.any (fun x => x.order_number == n)
  | none => false

/-- No price level of the side book has an empty queue. -/
def noEmptyB (b : SideBook) : Prop := ∀ pl ∈ b, pl.2 ≠ ([] : Level)

/-- No price level of either side book has an empty queue. -/
def noEmptyLevels (st : EngineState) : Prop := noEmptyB st.bid ∧ noEmptyB st.ask

/-- Well-formedness a Python dict-of-odicts enjoys by construction: price
keys are pairwise distinct, and so are the order numbers within one level. -/
def sideBookWF (b : SideBook) : Prop :=
  (b.map Prod.fst).Nodup ∧ ∀ pl ∈ b, (pl.2.map Event.order_number).Nodup

instance (b : SideBook) : Decidable (noEmptyB b) :=
  inferInstanceAs (Decidable (∀ pl ∈ b, pl.2 ≠ ([] : Level)))

instance (st : EngineState) : Decidable (noEmptyLevels st) :=
  inferInstanceAs (Decidable (noEmptyB st.bid ∧ noEmptyB st.ask))

instance (b : SideBook) : Decidable (sideBookWF b) :=
  inferInstanceAs (Decidable ((b.map Prod.fst).Nodup ∧
    ∀ pl ∈ b, (pl.2.map Event.order_number).Nodup))

/-! Concrete input events used by the claim theorems.  All prices are
multiples of the default `tick_size = 0.05`; integer prices are used so that
every proof evaluates by kernel reduction. -/

/-- Build an input row from the fields the engine reads. -/
def mkEvent (n : Nat) (dt : TransDate) (tm : Nat) (s : Side) (act : Nat)
    (vd vo : Nat) (lp : ℚ) (mkt : Bool) : Event :=
  { order_number := n, trans_date := dt, trans_time := tm,
    buy_sell_indicator := s, activity_type := act, volume_disclosed := vd,
    volume_original := vo, limit_price := lp, mkt_flag := mkt }

/-- 09/14/2010, the spec scenarios' date. -/
def d0914 : TransDate := { month := 9, day := 14, year := 2010 }

/-- 09/15/2010: next calendar day. -/
def d0915 : TransDate := { month := 9, day := 15, year := 2010 }

/-- 10/14/2010: next month, same day of month. -/
def d1014 : TransDate := { month := 10, day := 14, year := 2010 }

/-- C1: resting SELL order 1, limit 100, volume 10. -/
def c1_restSell : Event := mkEvent 1 d0914 0 Side.S 1 10 10 100 false

/-- C1: incoming BUY order 2, limit 100, volume 3 (marketable). -/
def c1_aggBuy : Event := mkEvent 2 d0914 1 Side.B 1 3 3 100 false

/-- C2: BUY market order, volume 100, arriving into an empty book. -/
def c2_market : Event := mkEvent 1 d0914 0 Side.B 1 100 100 0 true

/-- C3 (spec scenario D): resting SELL order 1, limit 100, volume 5. -/
def c3_restSell : Event := mkEvent 1 d0914 0 Side.S 1 5 5 100 false

/-- C3 (spec scenario D): incoming BUY order 2, limit 100, volume 8. -/
def c3_aggBuy : Event := mkEvent 2 d0914 1 Side.B 1 8 8 100 false

/-- C4: ADD BUY order 1, limit 100, volume 5. -/
def c4_add : Event := mkEvent 1 d0914 0 Side.B 1 5 5 100 false

/-- C4: MODIFY order 1 to limit 101 (price change), volume 5. -/
def c4_modify : Event := mkEvent 1 d0914 1 Side.B 4 5 5 101 false

/-- C5: ADD BUY order 1, limit 100, volume 5. -/
def c5_add : Event := mkEvent 1 d0914 0 Side.B 1 5 5 100 false

/-- C5: CANCEL order 1 whose reported limit price 101 disagrees with the
price 100 at which the order rests. -/
def c5_cancel : Event := mkEvent 1 d0914 1 Side.B 3 5 5 101 false

/-- C5 witness: CANCEL order 1 with the correct reported price 100. -/
def c5_cancelGood : Event := mkEvent 1 d0914 1 Side.B 3 5 5 100 false

/-- C6: ADD BUY order 1, limit 100, volume 5, on 09/14/2010. -/
def c6_add1 : Event := mkEvent 1 d0914 0 Side.B 1 5 5 100 false

/-- C6: ADD BUY order 2, limit 101, volume 5, on 10/14/2010 — a different
calendar day (next month) with the same day of month. -/
def c6_add2 : Event := mkEvent 2 d1014 1 Side.B 1 5 5 101 false

/-- C7: ADD BUY order 1, limit 100, volume 5, on 09/14/2010. -/
def c7_add : Event := mkEvent 1 d0914 0 Side.B 1 5 5 100 false

/-- C7: event with unknown activity type 2, dated 09/15/2010. -/
def c7_bad : Event := mkEvent 2 d0915 1 Side.B 2 5 5 100 false

/-- C8 witness: ADD SELL order 1, limit 100, volume 5. -/
def c8_add : Event := mkEvent 1 d0914 0 Side.S 1 5 5 100 false

/-- C8 witness: CANCEL order 1 at (SELL, 100), emptying its level. -/
def c8_cancel : Event := mkEvent 1 d0914 1 Side.S 3 5 5 100 false

/-- C9: chunk `a` = [ADD BUY order 1, limit 100, on 09/14/2010]. -/
def c9_add1 : Event := mkEvent 1 d0914 0 Side.B 1 5 5 100 false

/-- C9: chunk `b` = [ADD BUY order 2, limit 100, on 09/15/2010]. -/
def c9_add2 : Event := mkEvent 2 d0915 1 Side.B 1 5 5 100 false

/-- C10 witness: a state holding one recorded trade under key `00000001`
with the trade counter reset to 1 (as after `clear_book` on a new day). -/
def c10_state : EngineState :=
  { bid := [], ask := [], tradeCounter := 1,
    trades := [("00000001",
      { trade_time := 5, trade_price := 100, trade_quantity := 3,
        buy_order_number := 2, sell_order_number := 1 })] }

/-! ## Supporting lemmas -/

/-- Erasing the entry with key `v` from a list whose keys (under `f`) are
pairwise distinct leaves no entry with key `v`. -/
theorem mem_eraseP_key {α β : Type} [DecidableEq β] (f : α → β) (v : β) :
    ∀ l : List α, (l.map f).Nodup →
      ∀ x ∈ l.eraseP (fun y => f y == v), f x ≠ v := by
  intro l
  induction l with
  | nil => intro _ x hx; simp at hx
  | cons a t ih =>
    intro h x hx
    rw [List.map_cons, List.nodup_cons] at h
    by_cases hfa : f a = v
    · rw [List.eraseP_cons_of_pos (by simpa using hfa)] at hx
      intro hxv
      exact h.1 (by rw [hfa, ← hxv]; exact List.mem_map_of_mem f hx)
    · rw [List.eraseP_cons_of_neg (by simpa using hfa)] at hx
      rcases List.mem_cons.1 hx with rfl | hx'
      · exact hfa
      · exact ih h.2 x hx'

/-- With pairwise-distinct price keys, deleting the level at `p` makes a
lookup at `p` fail. -/
theorem lookupLevel_eraseLevel (b : SideBook) (p : ℚ)
    (h : (b.map Prod.fst).Nodup) :
    lookupLevel (eraseLevel b p) p = none := by
  have hf : (eraseLevel b p).find? (fun kv => kv.1 == p) = none := by
    rw [List.find?_eq_none]
    intro x hx
    unfold eraseLevel at hx
    simpa using mem_eraseP_key Prod.fst p b h x hx
  rw [lookupLevel, hf]
  rfl

/-- With pairwise-distinct order numbers, the queue left by popping the
order numbered `n` holds no order numbered `n`. -/
theorem any_eraseP_num (l : Level) (n : Nat)
    (h : (l.map Event.order_number).Nodup) :
    (l.eraseP (fun x => x.order_number == n)).any
      (fun x => x.order_number == n) = false := by
  rw [List.any_eq_false]
  intro x hx
  simpa using mem_eraseP_key Event.order_number n l h x hx

/-- Rewriting the queue stored at an existing price key makes a lookup at
that key return the new queue. -/
theorem lookupLevel_setLevel (b : SideBook) (p : ℚ) (v : Level) :
    lookupLevel b p ≠ none → lookupLevel (setLevel b p v) p = some v := by
  induction b with
  | nil => intro h; exact absurd rfl h
  | cons kv t ih =>
    intro h
    unfold setLevel
    rw [List.map_cons]
    by_cases hk : (kv.1 == p) = true
    · rw [if_pos hk]
      unfold lookupLevel
      rw [List.find?_cons]
      simp [hk]
    · rw [if_neg hk]
      unfold lookupLevel
      rw [List.find?_cons]
      simp only [Bool.not_eq_true] at hk
      simp only [hk, cond_false]
      apply ih
      intro hnone
      apply h
      unfold lookupLevel
      rw [List.find?_cons]
      simp only [hk, cond_false]
      exact hnone

/-- Reading back the side just written. -/
theorem getBook_setBook_same (st : EngineState) (s : Side) (b : SideBook) :
    getBook (setBook st s b) s = b := by
  cases s <;> rfl

/-- Writing a side book leaves the trade log unchanged. -/
theorem setBook_trades (st : EngineState) (s : Side) (b : SideBook) :
    (setBook st s b).trades = st.trades := by
  cases s <;> rfl

/-- Writing a side book leaves the trade counter unchanged. -/
theorem setBook_tradeCounter (st : EngineState) (s : Side) (b : SideBook) :
    (setBook st s b).tradeCounter = st.tradeCounter := by
  cases s <;> rfl

/-- One side of `noEmptyLevels`. -/
theorem noEmptyLevels_getBook (st : EngineState) (s : Side)
    (h : noEmptyLevels st) : noEmptyB (getBook st s) := by
  cases s
  · exact h.1
  · exact h.2

/-- `setBook` keeps `noEmptyLevels` when the written book satisfies it. -/
theorem noEmptyLevels_setBook (st : EngineState) (s : Side) (b : SideBook)
    (hst : noEmptyLevels st) (hb : noEmptyB b) :
    noEmptyLevels (setBook st s b) := by
  cases s
  · exact ⟨hb, hst.2⟩
  · exact ⟨hst.1, hb⟩

/-- Replacing a queue with a non-empty one keeps `noEmptyB`. -/
theorem noEmptyB_setLevel (b : SideBook) (p : ℚ) (v : Level)
    (hb : noEmptyB b) (hv : v ≠ []) : noEmptyB (setLevel b p v) := by
  intro pl hpl
  unfold setLevel at hpl
  obtain ⟨kv, hkv, heq⟩ := List.mem_map.1 hpl
  by_cases hk : (kv.1 == p) = true
  · rw [if_pos hk] at heq
    rw [← heq]
    exact hv
  · rw [if_neg hk] at heq
    rw [← heq]
    exact hb kv hkv

/-- Deleting a level keeps `noEmptyB`. -/
theorem noEmptyB_eraseLevel (b : SideBook) (p : ℚ) (hb : noEmptyB b) :
    noEmptyB (eraseLevel b p) := by
  intro pl hpl
  unfold eraseLevel at hpl
  exact hb pl (List.mem_of_mem_eraseP hpl)

/-- Appending an order to a (possibly fresh) level keeps `noEmptyB`. -/
theorem noEmptyB_addToLevel (b : SideBook) (p : ℚ) (o : Event)
    (hb : noEmptyB b) : noEmptyB (addToLevel b p o) := by
  unfold addToLevel
  cases h : lookupLevel b p with
  | some l => exact noEmptyB_setLevel b p (l ++ [o]) hb (by simp)
  | none =>
    intro pl hpl
    rcases List.mem_append.1 hpl with h1 | h2
    · exact hb pl h1
    · have hpl2 : pl = (p, [o]) := by simpa using h2
      rw [hpl2]
      simp

/-- The queue walk only records trades: both side books pass through. -/
theorem consumeLevel_books (inc : Event) (p : ℚ) :
    ∀ (R : Nat) (l : Level) (st : EngineState),
      (consumeLevel inc p R l st).2.2.bid = st.bid ∧
      (consumeLevel inc p R l st).2.2.ask = st.ask := by
  intro R l
  induction l generalizing R with
  | nil => intro st; exact ⟨rfl, rfl⟩
  | cons o os ih =>
    intro st
    unfold consumeLevel
    by_cases h1 : o.volume_original = R
    · simp only [if_pos h1]
      exact ⟨rfl, rfl⟩
    · by_cases h2 : R < o.volume_original
      · simp only [if_neg h1, if_pos h2]
        exact ⟨rfl, rfl⟩
      · simp only [if_neg h1, if_neg h2]
        exact ih (R - o.volume_original) _

/-- The queue walk keeps `noEmptyLevels`. -/
theorem noEmptyLevels_consumeLevel (inc : Event) (p : ℚ) (R : Nat)
    (l : Level) (st : EngineState) (h : noEmptyLevels st) :
    noEmptyLevels (consumeLevel inc p R l st).2.2 :=
  ⟨(consumeLevel_books inc p R l st).1 ▸ h.1,
   (consumeLevel_books inc p R l st).2 ▸ h.2⟩

/-- The match loop keeps `noEmptyLevels` on the state it returns, whether
or not it raises. -/
theorem noEmptyLevels_matchLoop (oppIsBid : Bool) (inc : Event) :
    ∀ (fuel R : Nat) (st : EngineState), noEmptyLevels st →
      noEmptyLevels (matchLoop oppIsBid inc fuel R st).1 := by
  intro fuel
  induction fuel with
  | zero => intro R st h; exact h
  | succ n ih =>
    intro R st h
    by_cases hR : R = 0
    · simp only [matchLoop, if_pos hR]
      exact h
    · simp only [matchLoop, if_neg hR]
      cases hbl : bestLevel oppIsBid
          (getBook st (if oppIsBid then Side.B else Side.S)) with
      | error e => exact h
      | ok v =>
        cases v with
        | none => exact h
        | some pl =>
          obtain ⟨p, l⟩ := pl
          apply ih
          apply noEmptyLevels_setBook _ _ _
            (noEmptyLevels_consumeLevel inc p R l st h)
          split
          · exact noEmptyB_eraseLevel _ _ (noEmptyLevels_getBook st _ h)
          · next hne =>
            apply noEmptyB_setLevel _ _ _ (noEmptyLevels_getBook st _ h)
            intro heq
            exact hne (by rw [heq]; rfl)

/-- `add` keeps `noEmptyLevels` on the state it returns. -/
theorem noEmptyLevels_addOrder (o : Event) (st : EngineState)
    (h : noEmptyLevels st) : noEmptyLevels (addOrder o st).1 := by
  unfold addOrder
  have hsetB : noEmptyLevels
      (setBook st Side.B (addToLevel st.bid o.limit_price o)) :=
    noEmptyLevels_setBook _ _ _ h (noEmptyB_addToLevel _ _ _ h.1)
  have hsetS : noEmptyLevels
      (setBook st Side.S (addToLevel st.ask o.limit_price o)) :=
    noEmptyLevels_setBook _ _ _ h (noEmptyB_addToLevel _ _ _ h.2)
  split
  · split
    · exact noEmptyLevels_matchLoop _ _ _ _ _ h
    · split
      · exact h
      · exact hsetB
      · split
        · exact noEmptyLevels_matchLoop _ _ _ _ _ h
        · exact hsetB
  · split
    · exact noEmptyLevels_matchLoop _ _ _ _ _ h
    · split
      · exact h
      · exact hsetS
      · split
        · exact noEmptyLevels_matchLoop _ _ _ _ _ h
        · exact hsetS

/-- `delete_order` keeps `noEmptyLevels` on the state it returns. -/
theorem noEmptyLevels_deleteOrder (st : EngineState) (s : Side) (p : ℚ)
    (n : Nat) (h : noEmptyLevels st) :
    noEmptyLevels (deleteOrder st s p n).1 := by
  unfold deleteOrder
  split
  · exact h
  · split
    · apply noEmptyLevels_setBook _ _ _ h
      split
      · exact noEmptyB_eraseLevel _ _ (noEmptyLevels_getBook st s h)
      · next hne =>
        apply noEmptyB_setLevel _ _ _ (noEmptyLevels_getBook st s h)
        intro heq
        exact hne (by rw [heq]; rfl)
    · exact h

/-- `cancel` keeps `noEmptyLevels` on the state it returns. -/
theorem noEmptyLevels_cancelOrder (o : Event) (st : EngineState)
    (h : noEmptyLevels st) : noEmptyLevels (cancelOrder o st).1 := by
  unfold cancelOrder
  split
  · exact h
  · split
    · exact h
    · split
      · exact noEmptyLevels_deleteOrder _ _ _ _ h
      · exact h

/-- `modify` keeps `noEmptyLevels` on the state it returns. -/
theorem noEmptyLevels_thenAdd (o : Event) (r : EngineState × Option ErrKind)
    (h : noEmptyLevels r.1) : noEmptyLevels (thenAdd o r).1 := by
  obtain ⟨st', err⟩ := r
  cases err with
  | none => exact noEmptyLevels_addOrder o st' h
  | some e => exact h

/-- `modify` keeps `noEmptyLevels` on the state it returns. -/
theorem noEmptyLevels_modifyOrder (o : Event) (st : EngineState)
    (h : noEmptyLevels st) : noEmptyLevels (modifyOrder o st).1 := by
  unfold modifyOrder
  split
  · exact h
  · split
    · exact h
    · rename_i l hl
      split
      · exact h
      · rename_i old hf
        have hlen : l.map
            (fun x => if x.order_number == o.order_number then o else x) ≠ [] := by
          rw [Ne, List.map_eq_nil_iff]
          exact List.ne_nil_of_mem (List.mem_of_find?_eq_some hf)
        split
        · exact noEmptyLevels_thenAdd o _ (noEmptyLevels_deleteOrder _ _ _ _ h)
        · split
          · exact noEmptyLevels_setBook _ _ _ h
              (noEmptyB_setLevel _ _ _ (noEmptyLevels_getBook st _ h) hlen)
          · split
            · exact noEmptyLevels_setBook _ _ _ h
                (noEmptyB_setLevel _ _ _ (noEmptyLevels_getBook st _ h) hlen)
            · split
              · exact noEmptyLevels_thenAdd o _ (noEmptyLevels_deleteOrder _ _ _ _ h)
              · split
                · exact noEmptyLevels_thenAdd o _ (noEmptyLevels_deleteOrder _ _ _ _ h)
                · exact h

/-- `clear_book` keeps `noEmptyLevels` (the books are emptied). -/
theorem noEmptyLevels_clearBook (st : EngineState) :
    noEmptyLevels (clearBook st) :=
  ⟨fun pl hp => absurd hp (List.not_mem_nil pl),
   fun pl hp => absurd hp (List.not_mem_nil pl)⟩

/-- One `process` iteration keeps `noEmptyLevels` on the state it returns. -/
theorem noEmptyLevels_stepEvent (day : Option Nat) (e : Event)
    (st : EngineState) (h : noEmptyLevels st) :
    noEmptyLevels (stepEvent day e st).2.1 := by
  cases day with
  | none =>
    simp only [stepEvent]
    split
    · exact noEmptyLevels_addOrder _ _ h
    · split
      · exact noEmptyLevels_cancelOrder _ _ h
      · split
        · split
          · exact noEmptyLevels_addOrder _ _ h
          · exact noEmptyLevels_modifyOrder _ _ h
        · exact h
  | some cd =>
    simp only [stepEvent]
    have h0 : noEmptyLevels
        (if cd ≠ e.trans_date.day then clearBook st else st) := by
      split
      · exact noEmptyLevels_clearBook st
      · exact h
    split
    · exact noEmptyLevels_addOrder _ _ h0
    · split
      · exact noEmptyLevels_cancelOrder _ _ h0
      · split
        · split
          · exact noEmptyLevels_addOrder _ _ h0
          · exact noEmptyLevels_modifyOrder _ _ h0
        · exact h0

/-- The whole `process` loop keeps `noEmptyLevels` on the state it returns,
whether it finishes or raises. -/
theorem noEmptyLevels_processFrom :
    ∀ (es : List Event) (day : Option Nat) (st : EngineState),
      noEmptyLevels st → noEmptyLevels (processFrom day es st).1 := by
  intro es
  induction es with
  | nil => intro day st h; exact h
  | cons e t ih =>
    intro day st h
    simp only [processFrom]
    split
    · exact noEmptyLevels_stepEvent day e st h
    · exact ih _ _ (noEmptyLevels_stepEvent day e st h)

/-- A price returned by `max`/`min` over the keys is one of the keys. -/
theorem extremeKey_mem (isBid : Bool) (b : SideBook) (p : ℚ)
    (h : extremeKey isBid b = some p) : p ∈ b.map Prod.fst := by
  have h' : ∀ (t : List (ℚ × Level)) (acc : Option ℚ) (q : ℚ),
      t.foldl
        (fun acc kv =>
          match acc with
          | none => some kv.1
          | some m => some (if isBid then max m kv.1 else min m kv.1)) acc =
        some q →
      q ∈ t.map Prod.fst ∨ acc = some q := by
    intro t
    induction t with
    | nil => intro acc q hq; exact Or.inr hq
    | cons kv tt ih =>
      intro acc q hq
      rw [List.foldl_cons] at hq
      rcases ih _ q hq with hmem | hacc
      · exact Or.inl (List.mem_cons_of_mem _ hmem)
      · cases acc with
        | none =>
          left
          have hq1 : kv.1 = q := by simpa using hacc
          rw [List.map_cons, ← hq1]
          exact List.mem_cons_self _ _
        | some m =>
          have hqm : (if isBid then max m kv.1 else min m kv.1) = q := by
            simpa using hacc
          by_cases hib : isBid = true
          · rw [if_pos hib] at hqm
            rcases max_choice m kv.1 with hc | hc
            · right
              rw [← hqm, hc]
            · left
              rw [List.map_cons, ← hqm, hc]
              exact List.mem_cons_self _ _
          · rw [if_neg hib] at hqm
            rcases min_choice m kv.1 with hc | hc
            · right
              rw [← hqm, hc]
            · left
              rw [List.map_cons, ← hqm, hc]
              exact List.mem_cons_self _ _
  rcases h' b none p h with hmem | hacc
  · exact hmem
  · exact absurd hacc (by simp)

/-- On a side book with no empty level, the best-price read never raises
`RuntimeError('empty price level detected')`. -/
theorem bestLevel_no_runtime_error (isBid : Bool) (b : SideBook)
    (hb : noEmptyB b) :
    bestLevel isBid b ≠ Except.error ErrKind.runtimeError := by
  unfold bestLevel
  cases hk : extremeKey isBid b with
  | none => simp
  | some p =>
    have hpmem : p ∈ b.map Prod.fst := extremeKey_mem isBid b p hk
    cases hl : lookupLevel b p with
    | none =>
      exfalso
      have hfind : b.find? (fun kv => kv.1 == p) = none := by
        have := hl
        rw [lookupLevel] at this
        exact Option.map_eq_none'.1 this
      rw [List.find?_eq_none] at hfind
      obtain ⟨kv, hkv, hfst⟩ := List.mem_map.1 hpmem
      exact hfind kv hkv (by simp [hfst])
    | some l =>
      cases l with
      | nil =>
        exfalso
        have := hl
        rw [lookupLevel] at this
        obtain ⟨kv, hfind, hsnd⟩ := Option.map_eq_some'.1 this
        exact hb kv (List.mem_of_find?_eq_some hfind) hsnd
      | cons x xs =>
        simp [hl]

/-- A replacing dict insertion keeps the key's entry findable with the new
value (induction core for the `record_trade` overwrite fact). -/
theorem find?_map_replace (k : String) (v : Trade) :
    ∀ m : List (String × Trade), m.any (fun kv => kv.1 == k) = true →
      (m.map (fun kv => if kv.1 == k then (kv.1, v) else kv)).find?
        (fun kv => kv.1 == k) = some (k, v) := by
  intro m
  induction m with
  | nil => intro h; simp at h
  | cons kv0 t ih =>
    intro h
    by_cases h0 : (kv0.1 == k) = true
    · rw [List.map_cons, if_pos h0, List.find?_cons]
      have hk : kv0.1 = k := by simpa using h0
      simp [hk]
    · rw [List.map_cons, if_neg h0, List.find?_cons]
      have h0' : (kv0.1 == k) = false := by
        simpa using h0
      simp only [h0', cond_false]
      apply ih
      rcases List.any_eq_true.1 h with ⟨x, hx, hpx⟩
      rcases List.mem_cons.1 hx with rfl | hx'
      · exact absurd hpx h0
      · exact List.any_eq_true.2 ⟨x, hx', hpx⟩

/-! ## Claim theorems -/

/-- C1.  The claim: when the head resting order has `volume_original`
greater than the remaining incoming volume `R`, the emitted trade quantity is
`M = min(R, O.volume_original) = R`.  The code instead records
`O.volume_original - R`: with order 1 resting SELL 10 at 100 and incoming
BUY order 2 for 3 at 100, the single emitted trade carries quantity `7`,
not `min 3 10 = 3`. -/
theorem trade_quantity_is_remainder_not_min :
    (processEvents [c1_restSell, c1_aggBuy] initState).2 = none ∧
    (processEvents [c1_restSell, c1_aggBuy] initState).1.trades =
      [("00000001",
        { trade_time := 1, trade_price := 100, trade_quantity := 7,
          buy_order_number := 2, sell_order_number := 1 })] ∧
    (7 : Nat) ≠ min 3 10 := by
  refine ⟨rfl, rfl, by decide⟩

/-- C2.  The claim: a market order into an empty opposite side is silently
dropped — no trade, no resting, no error, state unchanged.  The code leaves
the state unchanged and emits nothing, but it raises: `best_ask_price()`
returns `None`, `price_level(ASK, None)` returns `None`, and the loop then
evaluates `None.keys()`, an `AttributeError`. -/
theorem market_order_empty_book_raises :
    processEvents [c2_market] initState =
      (initState, some ErrKind.attributeError) := rfl

/-- C3.  The claim (spec scenario D): a marketable limit order stops
matching when the opposite side empties and rests its remainder at its own
limit price.  The code has no such exit: with SELL order 1 (100, vol 5)
resting and incoming BUY order 2 (limit 100, vol 8), the first trade
consumes the book, the loop re-reads the best ask, gets `None`, and raises
`AttributeError`; the residue of 3 is never rested (the bid book stays
empty) and the remainder-resting code path does not exist. -/
theorem marketable_limit_residue_never_rests :
    (processEvents [c3_restSell, c3_aggBuy] initState).2 =
      some ErrKind.attributeError ∧
    (processEvents [c3_restSell, c3_aggBuy] initState).1.bid = [] ∧
    (processEvents [c3_restSell, c3_aggBuy] initState).1.trades.length = 1 := by
  refine ⟨rfl, rfl, rfl⟩

/-- C4.  The claim: a MODIFY that changes the limit price removes the old
order and re-enters it through ADD.  The code looks the old order up at the
*new* price, where it cannot rest, so the branch is unreachable and the
modify is a silent no-op: after ADD order 1 at 100 and MODIFY order 1 to
101, the book still holds order 1 at 100, nothing rests at 101, and
the whole run equals the run without the modify. -/
theorem modify_price_change_is_noop :
    processEvents [c4_add, c4_modify] initState =
      processEvents [c4_add] initState ∧
    lookupLevel (processEvents [c4_add, c4_modify] initState).1.bid
      101 = none ∧
    lookupLevel (processEvents [c4_add, c4_modify] initState).1.bid 100 =
      some [c4_add] := by
  refine ⟨by decide, by decide, by decide⟩

/-- C5, counterexample.  The claim: cancel resolves the order through the
Order Index, so the order is removed even when the event's reported price
disagrees with where it rests.  The code has no index — it looks up the
level at the event's reported price: cancelling order 1 (resting at 100)
with reported price 101 leaves the order in the book, without error. -/
theorem cancel_wrong_price_leaves_order :
    (processEvents [c5_add, c5_cancel] initState).2 = none ∧
    (processEvents [c5_add, c5_cancel] initState).1.bid =
      [((100 : ℚ), [c5_add])] := by
  refine ⟨by decide, by decide⟩

/-- C6.  The claim: a change of calendar day — including of month or year —
triggers `clear_book` before the event.  The code compares only
`trans_date.day`, the day of month: with ADD order 1 on 09/14/2010 and ADD
order 2 on 10/14/2010 (a different calendar day, same day of month), no
clear happens and both orders rest together. -/
theorem month_rollover_does_not_clear :
    (processEvents [c6_add1, c6_add2] initState).2 = none ∧
    (processEvents [c6_add1, c6_add2] initState).1.bid =
      [((100 : ℚ), [c6_add1]), (101, [c6_add2])] := by
  refine ⟨by decide, by decide⟩

/-- C7, counterexample.  The claim: an unknown activity type is rejected
with the engine state exactly as before the event.  But the day-rollover
check runs before activity dispatch: ADD order 1 on 09/14 rests it, and an
activity-2 event dated 09/15 first empties the book via `clear_book`, then
raises — the state at the raise differs from the state before the event. -/
theorem unknown_activity_after_rollover_mutates :
    (processEvents [c7_add, c7_bad] initState).2 = some ErrKind.valueError ∧
    (processEvents [c7_add, c7_bad] initState).1.bid = [] ∧
    (processEvents [c7_add] initState).1.bid ≠ [] := by
  refine ⟨rfl, rfl, by decide⟩

/-- C7, amended.  An event whose activity type is not 1, 3 or 4 makes
`process` raise `ValueError`, and the state at the raise is exactly the
pre-event state except for the day-check effect that precedes dispatch:
when the tracked day differs from the event's day of month, `clear_book`
has already run. -/
theorem unknown_activity_rejected_after_day_check (day : Option Nat)
    (e : Event) (st : EngineState) (h1 : e.activity_type ≠ 1)
    (h3 : e.activity_type ≠ 3) (h4 : e.activity_type ≠ 4) :
    stepEvent day e st =
      ((match day with
        | none => some e.trans_date.day
        | some cd => some cd),
       (match day with
        | none => st
        | some cd => if cd ≠ e.trans_date.day then clearBook st else st),
       some ErrKind.valueError) := by
  cases day <;> simp [stepEvent, h1, h3, h4]

/-- C7, witness for the amended theorem at a concrete input: with tracked
day 14 and the activity-2 event dated 09/15, the step clears the book and
raises `ValueError`. -/
theorem unknown_activity_rejected_after_day_check_witness :
    stepEvent (some 14) c7_bad c10_state =
      (some 14, clearBook c10_state, some ErrKind.valueError) := by
  have h := unknown_activity_rejected_after_day_check (some 14) c7_bad
    c10_state (by decide) (by decide) (by decide)
  simpa using h

/-- C5, amended.  For a non-market CANCEL on a well-formed side book, the
order is located by the event's *reported* side and limit price and then by
order number within that level; no error is raised; when the order does not
rest at the reported (side, price) — including when the reported price
disagrees with where it actually rests — the cancel is a no-op; when it
does rest there, it is removed and the trade state is untouched. -/
theorem cancel_by_reported_side_and_price (e : Event) (st : EngineState)
    (hm : e.mkt_flag = false)
    (hwf : sideBookWF (getBook st e.buy_sell_indicator)) :
    (cancelOrder e st).2 = none ∧
    (restingAt st e.buy_sell_indicator e.limit_price e.order_number = false →
      (cancelOrder e st).1 = st) ∧
    (restingAt st e.buy_sell_indicator e.limit_price e.order_number = true →
      restingAt (cancelOrder e st).1 e.buy_sell_indicator e.limit_price
          e.order_number = false ∧
      (cancelOrder e st).1.trades = st.trades ∧
      (cancelOrder e st).1.tradeCounter = st.tradeCounter) := by
  cases hl : lookupLevel (getBook st e.buy_sell_indicator) e.limit_price with
  | none =>
    have hc : cancelOrder e st = (st, none) := by
      simp [cancelOrder, hm, hl]
    rw [hc]
    refine ⟨rfl, fun _ => rfl, fun habs => ?_⟩
    simp [restingAt, hl] at habs
  | some l =>
    cases ha : l.any (fun x => x.order_number == e.order_number) with
    | false =>
      have hc : cancelOrder e st = (st, none) := by
        simp [cancelOrder, deleteOrder, hm, hl, ha]
      rw [hc]
      refine ⟨rfl, fun _ => rfl, fun habs => ?_⟩
      simp [restingAt, hl, ha] at habs
    | true =>
      obtain ⟨kv, hfind, hsnd⟩ :
          ∃ kv, (getBook st e.buy_sell_indicator).find?
              (fun kv => kv.1 == e.limit_price) = some kv ∧ kv.2 = l := by
        have hl' := hl
        rw [lookupLevel] at hl'
        exact Option.map_eq_some'.1 hl'
      have hnodupL : (l.map Event.order_number).Nodup := by
        rw [← hsnd]
        exact hwf.2 kv (List.mem_of_find?_eq_some hfind)
      have hc : cancelOrder e st =
          (setBook st e.buy_sell_indicator
            (if (l.eraseP (fun x => x.order_number == e.order_number)).isEmpty
              then eraseLevel (getBook st e.buy_sell_indicator) e.limit_price
              else setLevel (getBook st e.buy_sell_indicator) e.limit_price
                (l.eraseP (fun x => x.order_number == e.order_number))), none) := by
        simp [cancelOrder, deleteOrder, hm, hl, ha]
      rw [hc]
      refine ⟨rfl, fun habs => ?_, fun _ => ?_⟩
      · simp [restingAt, hl, ha] at habs
      · refine ⟨?_, setBook_trades st _ _, setBook_tradeCounter st _ _⟩
        simp only [restingAt, getBook_setBook_same]
        by_cases he :
            (l.eraseP (fun x => x.order_number == e.order_number)).isEmpty = true
        · rw [if_pos he,
            lookupLevel_eraseLevel (getBook st e.buy_sell_indicator)
              e.limit_price hwf.1]
        · rw [if_neg he,
            lookupLevel_setLevel (getBook st e.buy_sell_indicator)
              e.limit_price _ (by rw [hl]; exact fun hcon => nomatch hcon)]
          exact any_eraseP_num l e.order_number hnodupL

/-- C5, witness for the amended theorem at a concrete input: order 1 rests
at (BUY, 100); a cancel reporting (BUY, 100) succeeds silently and the
order no longer rests there. -/
theorem cancel_by_reported_side_and_price_witness :
    (cancelOrder c5_cancelGood (processEvents [c5_add] initState).1).2 = none ∧
    restingAt (cancelOrder c5_cancelGood (processEvents [c5_add] initState).1).1
      c5_cancelGood.buy_sell_indicator c5_cancelGood.limit_price
      c5_cancelGood.order_number = false := by
  have h := cancel_by_reported_side_and_price c5_cancelGood
    (processEvents [c5_add] initState).1 (by decide) (by decide)
  exact ⟨h.1, (h.2.2 (by decide)).1⟩

/-- C8.  Processing any stream from a state whose side books hold no empty
price level yields (when no error is raised) a state whose side books hold
no empty price level; moreover on such a state the best-price read can
never hit the `empty price level detected` branch. -/
theorem no_empty_levels_after_processing (es : List Event) (st : EngineState)
    (hinv : noEmptyLevels st) (hok : (processEvents es st).2 = none) :
    noEmptyLevels (processEvents es st).1 ∧
    ∀ (isBid : Bool) (s : Side),
      bestLevel isBid (getBook (processEvents es st).1 s) ≠
        Except.error ErrKind.runtimeError := by
  have h1 := noEmptyLevels_processFrom es none st hinv
  exact ⟨h1, fun isBid s =>
    bestLevel_no_runtime_error isBid _ (noEmptyLevels_getBook _ s h1)⟩

/-- C8, witness at a concrete input: an add then a cancel that empties the
(SELL, 100) level; afterwards the invariant still holds. -/
theorem no_empty_levels_after_processing_witness :
    noEmptyLevels initState ∧
    (processEvents [c8_add, c8_cancel] initState).2 = none ∧
    noEmptyLevels (processEvents [c8_add, c8_cancel] initState).1 :=
  ⟨by decide, by decide,
    (no_empty_levels_after_processing [c8_add, c8_cancel] initState
      (by decide) (by decide)).1⟩

/-- C10.  `clear_book` empties both side books and resets the trade counter
to 1 while leaving the trade log untouched; and `record_trade` under a
counter whose 8-digit key is already present in the log *overwrites* that
entry (the log does not grow and the key now maps to the new trade). -/
theorem clear_book_keeps_trades_and_overwrite (st : EngineState) :
    (clearBook st).bid = [] ∧ (clearBook st).ask = [] ∧
    (clearBook st).tradeCounter = 1 ∧ (clearBook st).trades = st.trades ∧
    ∀ (tm : Nat) (p : ℚ) (q bn sn : Nat),
      st.trades.any (fun kv => kv.1 == formatTradeNumber st.tradeCounter) = true →
      (recordTrade tm p q bn sn st).trades.length = st.trades.length ∧
      (recordTrade tm p q bn sn st).trades.find?
          (fun kv => kv.1 == formatTradeNumber st.tradeCounter) =
        some (formatTradeNumber st.tradeCounter,
          { trade_time := tm, trade_price := p, trade_quantity := q,
            buy_order_number := bn, sell_order_number := sn }) := by
  refine ⟨rfl, rfl, rfl, rfl, ?_⟩
  intro tm p q bn sn h
  constructor
  · show (dictInsert st.trades (formatTradeNumber st.tradeCounter) _).length = _
    unfold dictInsert
    rw [if_pos h, List.length_map]
  · show (dictInsert st.trades (formatTradeNumber st.tradeCounter) _).find? _ = _
    unfold dictInsert
    rw [if_pos h]
    exact find?_map_replace (formatTradeNumber st.tradeCounter) _ st.trades h

/-- C10, witness at a concrete state: the log holds a trade under key
`00000001` and the counter has been reset to 1; recording a new trade keeps
the log at one entry and the key now maps to the new trade. -/
theorem clear_book_keeps_trades_and_overwrite_witness :
    (clearBook c10_state).trades = c10_state.trades ∧
    (recordTrade 9 200 4 7 8 c10_state).trades.length = 1 ∧
    (recordTrade 9 200 4 7 8 c10_state).trades.find?
        (fun kv => kv.1 == formatTradeNumber c10_state.tradeCounter) =
      some (formatTradeNumber c10_state.tradeCounter,
        { trade_time := 9, trade_price := 200, trade_quantity := 4,
          buy_order_number := 7, sell_order_number := 8 }) := by
  have h := clear_book_keeps_trades_and_overwrite c10_state
  have h5 := h.2.2.2.2 9 200 4 7 8 (by decide)
  exact ⟨h.2.2.2.1, h5.1, h5.2⟩

/-- C9.  The claim: processing a stream in two chunks equals processing it
whole.  The day tracker is a variable local to each `process` call, so a day
rollover at a chunk boundary is missed: for `a = [ADD order 1 on 09/14]`
and `b = [ADD order 2 on 09/15]`, the single call clears the book before
order 2 (only order 2 rests), while the chunked calls never clear (both
orders rest). -/
theorem chunk_boundary_changes_semantics :
    (processEvents [c9_add1, c9_add2] initState).1.bid =
      [((100 : ℚ), [c9_add2])] ∧
    (processEvents [c9_add2] (processEvents [c9_add1] initState).1).1.bid =
      [((100 : ℚ), [c9_add1, c9_add2])] ∧
    (processEvents [c9_add1, c9_add2] initState).2 = none ∧
    (processEvents [c9_add2] (processEvents [c9_add1] initState).1).2 = none := by
  refine ⟨rfl, rfl, rfl, rfl⟩

end Lob
